import Mathlib

set_option maxRecDepth 20000

/-!
Verification of the PPT→PDF batch conversion pipeline (`src/app.py`).

Filenames are modelled as `List Char`; a produced output file is
abstracted by the two observations the pipeline makes of it, its byte
size and its first five bytes (`PdfBytes`).  The external converter
(LibreOffice) is the collaborator boundary: its observable behaviour on
one invocation is a `ConvBehavior` (timeout flag, exit code, captured
streams, optionally produced output file).  The filesystem state
touched by the pipeline is an explicit `FS` record threaded through the
worker and the batch loop.
-/

namespace PptPdf

/-- Whitespace characters, as stripped by Python `str.strip` and matched
by the regex class (ASCII portion). -/
def isPySpace (c : Char) : Bool :=
  c = ' ' || c = '\t' || c = '\n' || c = '\r' || c = '\x0b' || c = '\x0c'

/-- The characters removed by `safe_filename` (regex class in the source). -/
def isUnsafeChar (c : Char) : Bool :=
  c = '\\' || c = '/' || c = ':' || c = '*' || c = '?' || c = '\"' ||
  c = '<' || c = '>' || c = '|'

/-- Code-point lexicographic `≤` on strings, the order Python uses when
comparing `str` values inside sort keys. -/
def lexLe : List Char → List Char → Bool
  | [], _ => true
  | _ :: _, [] => false
  | a :: as, b :: bs =>
    if a.toNat < b.toNat then true
    else if b.toNat < a.toNat then false
    else lexLe as bs

/-- ASCII lower-casing of a filename, modelling Python `str.lower`. -/
def lowerL (l : List Char) : List Char := l.map Char.toLower

/-- ASCII upper-casing of a filename, modelling Python `str.upper`. -/
def upperL (l : List Char) : List Char := l.map Char.toUpper

/-- The decimal digit character for `n` (`n` taken below 10). -/
def digitChar (n : Nat) : Char :=
  match n with
  | 0 => '0' | 1 => '1' | 2 => '2' | 3 => '3' | 4 => '4'
  | 5 => '5' | 6 => '6' | 7 => '7' | 8 => '8' | _ => '9'

/-- Decimal digits, fuelled structural recursion (the fuel strictly
bounds the value, which suffices since a number has at most that many
digits). -/
def natDigitsAux : Nat → Nat → List Char
  | 0, _ => []
  | fuel + 1, n =>
    if n < 10 then [digitChar n]
    else natDigitsAux fuel (n / 10) ++ [digitChar (n % 10)]

/-- Decimal digit string of a natural number, most significant first. -/
def natDigits (n : Nat) : List Char := natDigitsAux (n + 1) n

/-- Python `f-string` formatting with `{i:02d}`: zero-pad to width 2. -/
def pad2 (n : Nat) : List Char :=
  if n < 10 then '0' :: natDigits n else natDigits n

/-- Numeric value of a decimal digit string (used to invert `pad2`). -/
def digitsVal (l : List Char) : Nat :=
  l.foldl (fun a c => 10 * a + (c.toNat - 48)) 0

/-- Test `startsWithSeg pat s` : `s` begins with the character segment `pat`. -/
def startsWithSeg : List Char → List Char → Bool
  | [], _ => true
  | _ :: _, [] => false
  | a :: as, b :: bs => a = b && startsWithSeg as bs

/-- Test `containsSeg pat s` : `pat` occurs contiguously inside `s`
(Python `pat in s`). -/
def containsSeg (pat : List Char) : List Char → Bool
  | [] => startsWithSeg pat []
  | c :: rest => startsWithSeg pat (c :: rest) || containsSeg pat rest

/-- Index of the last dot in a filename, if any (CPython
`str.rfind` specialised to the dot, as used by `pathlib`). -/
def lastDotIdx (l : List Char) : Option Nat :=
  (l.foldl (fun (p : Nat × Option Nat) c =>
    (p.1 + 1, if c = '.' then some p.1 else p.2)) (0, none)).2

/-- Model of `PurePath.suffix`: the extension from the last dot, empty unless the
last dot sits strictly inside the name. -/
def pySuffix (name : List Char) : List Char :=
  match lastDotIdx name with
  | some i => if 0 < i ∧ i < name.length - 1 then name.drop i else []
  | none => []

/-- Model of `PurePath.stem`: the name with its suffix removed. -/
def pyStem (name : List Char) : List Char :=
  match lastDotIdx name with
  | some i => if 0 < i ∧ i < name.length - 1 then name.take i else name
  | none => name

/-- The accepted presentation extensions (lower-cased). -/
def allowedExt : List (List Char) :=
  [(".ppt").data, (".pptx").data, (".pptm").data]

/-- The classifier predicate from the batch setup: a regular file is
eligible exactly when its `pathlib` suffix, lower-cased, is an allowed
presentation extension. -/
def eligible (name : List Char) : Bool :=
  allowedExt.contains (lowerL (pySuffix name))

/-- The tail of the chapter regex `CH\s*0*(\d+)` after a literal `CH`:
skip whitespace, then require at least one digit; the captured value is
the numeric value of the digit run. -/
def afterCh (l : List Char) : Option Nat :=
  let r := l.dropWhile isPySpace
  let ds := r.takeWhile Char.isDigit
  if ds.isEmpty then none else some (digitsVal ds)

/-- Leftmost match of `re.search(r"CH\s*0*(\d+)", name)`: scan left to
right for a position starting `CH`, whitespace, digits. -/
def chMatch : List Char → Option Nat
  | [] => none
  | c :: rest =>
    match c, rest with
    | 'C', 'H' :: r2 =>
      match afterCh r2 with
      | some v => some v
      | none => chMatch rest
    | _, _ => chMatch rest

/-- Leftmost match of `re.search(r"0*(\d+)", name)`: value of the first
maximal digit run in the name. -/
def bareMatch (l : List Char) : Option Nat :=
  let r := l.dropWhile (fun c => !c.isDigit)
  let ds := r.takeWhile Char.isDigit
  if ds.isEmpty then none else some (digitsVal ds)

/-- Function `chapter_key` from the source: three-tier sort key on the upper-cased
filename; the third component is the original (not upper-cased) name. -/
def chapter_key (name : List Char) : Nat × Nat × List Char :=
  let u := upperL name
  match chMatch u with
  | some v => (0, v, name)
  | none =>
    match bareMatch u with
    | some v => (1, v, name)
    | none => (2, 9999, name)

/-- Python tuple comparison on sort keys: lexicographic on
(tier, value, name), names compared by code point. -/
def keyLeB (a b : Nat × Nat × List Char) : Bool :=
  if a.1 < b.1 then true
  else if b.1 < a.1 then false
  else if a.2.1 < b.2.1 then true
  else if b.2.1 < a.2.1 then false
  else lexLe a.2.2 b.2.2

/-- The comparison `ppt_files.sort(key=chapter_key)` sorts by. -/
def fileLe (a b : List Char) : Prop :=
  keyLeB (chapter_key a) (chapter_key b) = true

instance : DecidableRel fileLe := fun a b =>
  inferInstanceAs (Decidable (keyLeB (chapter_key a) (chapter_key b) = true))

/-- Model of `ppt_files.sort(key=chapter_key)` : stable sort by the chapter key
(Python list.sort is stable; so is insertion sort). -/
def sortFiles (names : List (List Char)) : List (List Char) :=
  List.insertionSort fileLe names

/-- One pass of `re.sub` over a character class with `+`: each maximal
run of unsafe characters is replaced by a single underscore.  The flag
records whether the previous character was part of an unsafe run. -/
def subUnsafeAux : Bool → List Char → List Char
  | _, [] => []
  | prev, c :: rest =>
    if isUnsafeChar c then
      if prev then subUnsafeAux true rest
      else '_' :: subUnsafeAux true rest
    else c :: subUnsafeAux false rest

/-- Python `str.rstrip`. -/
def rstripL (l : List Char) : List Char :=
  (l.reverse.dropWhile isPySpace).reverse

/-- Python `str.strip`. -/
def stripL (l : List Char) : List Char :=
  rstripL (l.dropWhile isPySpace)

/-- State of `safe_filename`, after the `re.sub` and `str.strip` lines. -/
def sfStripped (name : List Char) : List Char :=
  stripL (subUnsafeAux false name)

/-- State of `safe_filename`, after the conditional truncation to 80 characters
(`name[:80].rstrip()`). -/
def sfTrunc (name : List Char) : List Char :=
  if 80 < (sfStripped name).length then rstripL ((sfStripped name).take 80)
  else sfStripped name

/-- Function `safe_filename` from the source: collapse unsafe characters to
underscores, strip, truncate to 80 with a right-strip, and fall back to
a fixed name when empty. -/
def safe_filename (name : List Char) : List Char :=
  if (sfTrunc name).isEmpty then ("file").data else sfTrunc name

/-- The per-document output filename computed by the batch loop:
`f"{i:02d}_{base}.pdf"`. -/
def outName (i : Nat) (base : List Char) : List Char :=
  pad2 i ++ '_' :: (base ++ (".pdf").data)

/-- The distinct raise sites of `convert_ppt_to_pdf`, named after the
error taxonomy of the design document. -/
inductive ErrKind where
  | engineUnavailable
  | timedOut
  | convFailed
  | outputMissing
  | corruptOutput
deriving DecidableEq

/-- A produced output file, abstracted by the two observations the
pipeline makes of it: its `stat().st_size` and the five bytes returned
by `f.read(5)`. -/
structure PdfBytes where
  size : Nat
  head5 : List Nat
deriving DecidableEq

/-- Observable behaviour of one invocation of the external converter on
one input: whether the call exceeds the 240 s timeout, its exit code,
its captured streams, and the output file it writes into the output
directory (`None` when it writes nothing). -/
structure ConvBehavior where
  timedOut : Bool
  returncode : Nat
  stderrTxt : List Char
  stdoutTxt : List Char
  produced : Option PdfBytes

/-- Filesystem state touched by the pipeline: names present in the
scratch working directory, name→content of the output directory, and
the log of spawned subprocess command lines. -/
structure FS where
  workDir : List (List Char)
  pdfDir : List (List Char × PdfBytes)
  spawned : List (List (List Char))

def emptyFS : FS := ⟨[], [], []⟩

/-- First-match association lookup in a directory listing. -/
def lookupFile : List (List Char × PdfBytes) → List Char → Option PdfBytes
  | [], _ => none
  | (n, c) :: rest, m => if n = m then some c else lookupFile rest m

/-- Write (create or overwrite) a file in a directory listing. -/
def setFile (d : List (List Char × PdfBytes)) (n : List Char) (c : PdfBytes) :
    List (List Char × PdfBytes) :=
  (n, c) :: d.filter (fun e => e.1 ≠ n)

/-- Delete a file from a directory listing. -/
def removeFile (d : List (List Char × PdfBytes)) (n : List Char) :
    List (List Char × PdfBytes) :=
  d.filter (fun e => e.1 ≠ n)

/-- The first five bytes of every well-formed PDF: `%PDF-` in ASCII. -/
def pdfMagic : List Nat := [37, 80, 68, 70, 45]

def squote : Char := Char.ofNat 39

/-- Python `repr` of a list of strings, as rendered by
`"%s" % cmd` inside `TimeoutExpired.__str__` (no escaping needed for
these command lines). -/
def pyListRepr (xs : List (List Char)) : List Char :=
  '[' :: (List.intercalate ((", ").data)
    (xs.map (fun s => squote :: (s ++ [squote])))) ++ [']']

/-- Rendering of `str(subprocess.TimeoutExpired(cmd, 240))`. -/
def timeoutMsg (cmd : List (List Char)) : List Char :=
  ("Command ").data ++ squote :: pyListRepr cmd ++ squote ::
    (" timed out after 240 seconds").data

/-- Message of the engine-missing `RuntimeError`. -/
def engineMsg : List Char :=
  ("LibreOffice(soffice)를 찾지 못했습니다. 서버에는 packages.txt로 설치되어야 합니다.").data

/-- Message of the non-zero-exit `RuntimeError` (an f-string naming the
source file and both captured streams). -/
def convFailedMsg (name stderrTxt stdoutTxt : List Char) : List Char :=
  ("[변환 실패] ").data ++ name ++ ("\n\nstderr:\n").data ++ stderrTxt ++
    ("\n\nstdout:\n").data ++ stdoutTxt

/-- Message of the output-missing `RuntimeError`. -/
def missingMsg (name : List Char) : List Char :=
  ("PDF 생성 실패(파일 없음): ").data ++ name

/-- Message of the too-small-output `RuntimeError`. -/
def corruptSizeMsg (name : List Char) : List Char :=
  ("PDF가 0KB/비정상 크기(변환 실패): ").data ++ name

/-- Message of the bad-signature `RuntimeError`. -/
def corruptHdrMsg (name : List Char) : List Char :=
  ("PDF 헤더 없음(손상/비PDF): ").data ++ name

/-- The fixed flags of the converter command line. -/
def sofficeFlags : List (List Char) :=
  [("--headless").data, ("--nologo").data, ("--nofirststartwizard").data,
   ("--convert-to").data, ("pdf:impress_pdf_Export").data, ("--outdir").data]

/-- The collision-free temporary input name: the generated stem plus
the lower-cased original extension
(`work_dir / f"{tmp_stem}{input_path.suffix.lower()}"`). -/
def safeInNameOf (tmpStem inputName : List Char) : List Char :=
  tmpStem ++ lowerL (pySuffix inputName)

/-- The command line passed to `subprocess.run`. -/
def cmdOf (eng workDirStr pdfDirStr tmpStem inputName : List Char) :
    List (List Char) :=
  eng :: sofficeFlags ++ [pdfDirStr, workDirStr ++ '/' :: safeInNameOf tmpStem inputName]

/-- The output name the converter writes: `f"{tmp_stem}.pdf"`. -/
def madeNameOf (tmpStem : List Char) : List Char :=
  tmpStem ++ (".pdf").data

/-- Filesystem state right after `shutil.copyfile` and the subprocess
call: the temp copy is in the working directory, the command is logged,
and whatever the converter produced is in the output directory. -/
def fsAfterRun (fs : FS) (beh : ConvBehavior)
    (eng workDirStr pdfDirStr tmpStem inputName : List Char) : FS :=
  { workDir := safeInNameOf tmpStem inputName :: fs.workDir,
    pdfDir := match beh.produced with
      | some content => setFile fs.pdfDir (madeNameOf tmpStem) content
      | none => fs.pdfDir,
    spawned := fs.spawned ++ [cmdOf eng workDirStr pdfDirStr tmpStem inputName] }

/-- Function `convert_ppt_to_pdf` from the source, one conversion attempt.
Inputs: the resolved engine path (`SOFFICE`, `none` when the locator
failed), the rendered work/output directory paths, the converter
behaviour for this call, the original filename, the generated temporary
stem (`input_{uuid4().hex}`), and the final output name.
Returns the result (final name, or the raise site and rendered message)
together with the filesystem state at return/raise time. -/
def convert_ppt_to_pdf (engine : Option (List Char))
    (workDirStr pdfDirStr : List Char) (beh : ConvBehavior)
    (inputName tmpStem finalName : List Char) (fs : FS) :
    Except (ErrKind × List Char) (List Char) × FS :=
  match engine with
  | none => (Except.error (ErrKind.engineUnavailable, engineMsg), fs)
  | some eng =>
    if beh.timedOut then
      (Except.error (ErrKind.timedOut, timeoutMsg (cmdOf eng workDirStr pdfDirStr tmpStem inputName)),
        fsAfterRun fs beh eng workDirStr pdfDirStr tmpStem inputName)
    else if beh.returncode ≠ 0 then
      (Except.error (ErrKind.convFailed,
        convFailedMsg inputName beh.stderrTxt beh.stdoutTxt),
        fsAfterRun fs beh eng workDirStr pdfDirStr tmpStem inputName)
    else
      match lookupFile (fsAfterRun fs beh eng workDirStr pdfDirStr tmpStem inputName).pdfDir
          (madeNameOf tmpStem) with
      | none => (Except.error (ErrKind.outputMissing, missingMsg inputName),
          fsAfterRun fs beh eng workDirStr pdfDirStr tmpStem inputName)
      | some content =>
        if content.size < 5000 then
          (Except.error (ErrKind.corruptOutput, corruptSizeMsg inputName),
            fsAfterRun fs beh eng workDirStr pdfDirStr tmpStem inputName)
        else if content.head5 ≠ pdfMagic then
          (Except.error (ErrKind.corruptOutput, corruptHdrMsg inputName),
            fsAfterRun fs beh eng workDirStr pdfDirStr tmpStem inputName)
        else
          (Except.ok finalName,
            { workDir := (fsAfterRun fs beh eng workDirStr pdfDirStr tmpStem inputName).workDir.filter
                (fun n => n ≠ safeInNameOf tmpStem inputName),
              pdfDir := setFile
                (removeFile (fsAfterRun fs beh eng workDirStr pdfDirStr tmpStem inputName).pdfDir
                  (madeNameOf tmpStem)) finalName content,
              spawned := (fsAfterRun fs beh eng workDirStr pdfDirStr tmpStem inputName).spawned })

/-- One source document of a batch: its filename, the temporary stem the
worker will draw for it, and the converter behaviour on it. -/
structure FileSpec where
  name : List Char
  tmpStem : List Char
  beh : ConvBehavior

/-- Result of a batch run: the tally, the recorded error messages in
order, and the final filesystem state. -/
structure BatchOut where
  successCount : Nat
  errors : List (List Char)
  fs : FS

/-- The batch loop from the source (`for i, ppt in enumerate(ppt_files,
start=1)`): each document either bumps the success count or appends one
caught error message; nothing aborts the loop. -/
def runBatchGo (engine : Option (List Char)) (workDirStr pdfDirStr : List Char) :
    Nat → List FileSpec → Nat → List (List Char) → FS → BatchOut
  | _, [], sc, errs, fs => ⟨sc, errs, fs⟩
  | i, f :: rest, sc, errs, fs =>
    let base := safe_filename (pyStem f.name)
    let nm := outName i base
    match convert_ppt_to_pdf engine workDirStr pdfDirStr f.beh f.name f.tmpStem nm fs with
    | (Except.ok _, fs') => runBatchGo engine workDirStr pdfDirStr (i + 1) rest (sc + 1) errs fs'
    | (Except.error e, fs') =>
      runBatchGo engine workDirStr pdfDirStr (i + 1) rest sc (errs ++ [e.2]) fs'

/-- The whole conversion phase over the sorted document list, starting
from fresh scratch directories. -/
def runBatch (engine : Option (List Char)) (workDirStr pdfDirStr : List Char)
    (files : List FileSpec) : BatchOut :=
  runBatchGo engine workDirStr pdfDirStr 1 files 0 [] emptyFS

/-- Test that `s` ends with the segment `pat`. -/
def endsWithSeg (pat s : List Char) : Bool :=
  startsWithSeg pat.reverse s.reverse

/-- Name order used by `sorted(...)` over the output directory. -/
def nameLe (a b : List Char) : Prop := lexLe a b = true

instance : DecidableRel nameLe := fun a b =>
  inferInstanceAs (Decidable (lexLe a b = true))

/-- The packaging step: `sorted(pdf_dir.glob("*.pdf"))` written into the
archive by base name — the entry list of `PDFs.zip`. -/
def zipEntries (fs : FS) : List (List Char) :=
  List.insertionSort nameLe
    ((fs.pdfDir.map (fun e => e.1)).filter (fun n => endsWithSeg ((".pdf").data) n))

/-- The raise site of a worker result, if it is an error. -/
def errKindOf (r : Except (ErrKind × List Char) (List Char)) : Option ErrKind :=
  match r with
  | Except.error e => some e.1
  | Except.ok _ => none

/-- Whether a worker result is a success. -/
def isOkRes (r : Except (ErrKind × List Char) (List Char)) : Bool :=
  match r with
  | Except.error _ => false
  | Except.ok _ => true

/-! ### Concrete converter behaviours used in the counterexample runs -/

/-- A converter run that produces a structurally valid PDF. -/
def behValid : ConvBehavior :=
  ⟨false, 0, [], [], some ⟨402000, pdfMagic⟩⟩

/-- A converter run that exits 0 but writes a 100-byte non-PDF file. -/
def behSmall : ConvBehavior :=
  ⟨false, 0, [], [], some ⟨100, [0, 0, 0, 0, 0]⟩⟩

/-- A converter run that exceeds the 240 s timeout. -/
def behHang : ConvBehavior := ⟨true, 0, [], [], none⟩

/-- A converter run that exits with status 1, writing a corrupt file. -/
def behExitOne : ConvBehavior :=
  ⟨false, 1, ("boom").data, [], some ⟨100, [0, 0, 0, 0, 0]⟩⟩

/-! ### The order relations are total and transitive -/

theorem lexLe_total : ∀ a b : List Char, lexLe a b = true ∨ lexLe b a = true := by
  intro a
  induction a with
  | nil => intro b; left; rfl
  | cons x xs ih =>
    intro b
    cases b with
    | nil => right; rfl
    | cons y ys =>
      simp only [lexLe]
      rcases Nat.lt_trichotomy x.toNat y.toNat with h | h | h
      · left; simp [h]
      · have h2 : ¬ x.toNat < y.toNat := by omega
        have h3 : ¬ y.toNat < x.toNat := by omega
        simpa [h2, h3] using ih ys
      · right; simp [h, show ¬ y.toNat < x.toNat → False from fun hk => hk h]

theorem lexLe_trans :
    ∀ a b c : List Char, lexLe a b = true → lexLe b c = true → lexLe a c = true := by
  intro a
  induction a with
  | nil => intro b c _ _; rfl
  | cons x xs ih =>
    intro b c hab hbc
    cases b with
    | nil => simp [lexLe] at hab
    | cons y ys =>
      cases c with
      | nil => simp [lexLe] at hbc
      | cons z zs =>
        simp only [lexLe] at hab hbc ⊢
        rcases Nat.lt_trichotomy x.toNat y.toNat with hxy | hxy | hxy <;>
          rcases Nat.lt_trichotomy y.toNat z.toNat with hyz | hyz | hyz
        · simp [show x.toNat < z.toNat by omega]
        · simp [show x.toNat < z.toNat by omega]
        · simp [show ¬ y.toNat < z.toNat by omega, show z.toNat < y.toNat from hyz] at hbc
        · simp [show x.toNat < z.toNat by omega]
        · have e1 : ¬ x.toNat < y.toNat := by omega
          have e2 : ¬ y.toNat < x.toNat := by omega
          have e3 : ¬ y.toNat < z.toNat := by omega
          have e4 : ¬ z.toNat < y.toNat := by omega
          have e5 : ¬ x.toNat < z.toNat := by omega
          have e6 : ¬ z.toNat < x.toNat := by omega
          rw [if_neg e1, if_neg e2] at hab
          rw [if_neg e3, if_neg e4] at hbc
          rw [if_neg e5, if_neg e6]
          exact ih ys zs hab hbc
        · simp [show ¬ y.toNat < z.toNat by omega, show z.toNat < y.toNat from hyz] at hbc
        · simp [show ¬ x.toNat < y.toNat by omega, show y.toNat < x.toNat from hxy] at hab
        · simp [show ¬ x.toNat < y.toNat by omega, show y.toNat < x.toNat from hxy] at hab
        · simp [show ¬ x.toNat < y.toNat by omega, show y.toNat < x.toNat from hxy] at hab

/-- The shared shape of one level of Python tuple comparison. -/
def natThen (m n : Nat) (k : Bool) : Bool :=
  if m < n then true else if n < m then false else k

theorem keyLeB_eq_natThen (a b : Nat × Nat × List Char) :
    keyLeB a b = natThen a.1 b.1 (natThen a.2.1 b.2.1 (lexLe a.2.2 b.2.2)) := rfl

theorem natThen_total {m n : Nat} {k1 k2 : Bool} (hk : k1 = true ∨ k2 = true) :
    natThen m n k1 = true ∨ natThen n m k2 = true := by
  unfold natThen
  rcases Nat.lt_trichotomy m n with h | h | h
  · left; simp [h]
  · have h2 : ¬ m < n := by omega
    have h3 : ¬ n < m := by omega
    rcases hk with hk | hk
    · left; rw [if_neg h2, if_neg h3]; exact hk
    · right; rw [if_neg h3, if_neg h2]; exact hk
  · right; simp [h]

theorem natThen_trans {m n p : Nat} {k1 k2 k3 : Bool}
    (hk : k1 = true → k2 = true → k3 = true) :
    natThen m n k1 = true → natThen n p k2 = true → natThen m p k3 = true := by
  unfold natThen
  rcases Nat.lt_trichotomy m n with hmn | hmn | hmn <;>
    rcases Nat.lt_trichotomy n p with hnp | hnp | hnp <;>
      intro h1 h2
  · simp [show m < p by omega]
  · simp [show m < p by omega]
  · simp [show ¬ n < p by omega, hnp] at h2
  · simp [show m < p by omega]
  · have e1 : ¬ m < n := by omega
    have e2 : ¬ n < m := by omega
    have e3 : ¬ n < p := by omega
    have e4 : ¬ p < n := by omega
    have e5 : ¬ m < p := by omega
    have e6 : ¬ p < m := by omega
    rw [if_neg e1, if_neg e2] at h1
    rw [if_neg e3, if_neg e4] at h2
    rw [if_neg e5, if_neg e6]
    exact hk h1 h2
  · simp [show ¬ n < p by omega, hnp] at h2
  · simp [show ¬ m < n by omega, hmn] at h1
  · simp [show ¬ m < n by omega, hmn] at h1
  · simp [show ¬ m < n by omega, hmn] at h1

theorem keyLeB_total (a b : Nat × Nat × List Char) :
    keyLeB a b = true ∨ keyLeB b a = true := by
  rw [keyLeB_eq_natThen, keyLeB_eq_natThen]
  exact natThen_total (natThen_total (lexLe_total a.2.2 b.2.2))

theorem keyLeB_trans (a b c : Nat × Nat × List Char) :
    keyLeB a b = true → keyLeB b c = true → keyLeB a c = true := by
  rw [keyLeB_eq_natThen, keyLeB_eq_natThen, keyLeB_eq_natThen]
  exact natThen_trans (natThen_trans (lexLe_trans a.2.2 b.2.2 c.2.2))

instance fileLe_isTotal : IsTotal (List Char) fileLe :=
  ⟨fun a b => keyLeB_total (chapter_key a) (chapter_key b)⟩

instance fileLe_isTrans : IsTrans (List Char) fileLe :=
  ⟨fun a b c => keyLeB_trans (chapter_key a) (chapter_key b) (chapter_key c)⟩

instance nameLe_isTotal : IsTotal (List Char) nameLe := ⟨lexLe_total⟩

instance nameLe_isTrans : IsTrans (List Char) nameLe := ⟨fun a b c => lexLe_trans a b c⟩

/-! ### Decimal-string lemmas: the index prefix of an output name is
recoverable, so the naming scheme is collision-free -/

theorem digitChar_isDigit (m : Nat) : (digitChar m).isDigit = true := by
  unfold digitChar
  split <;> decide

theorem digitChar_toNat (m : Nat) (h : m < 10) : (digitChar m).toNat = 48 + m :=
  (by decide : ∀ m' : Nat, m' < 10 → (digitChar m').toNat = 48 + m') m h

theorem digitsVal_append_one (l : List Char) (c : Char) :
    digitsVal (l ++ [c]) = 10 * digitsVal l + (c.toNat - 48) := by
  unfold digitsVal
  rw [List.foldl_append]
  rfl

theorem digitsVal_natDigitsAux :
    ∀ (fuel n : Nat), n < fuel → digitsVal (natDigitsAux fuel n) = n := by
  intro fuel
  induction fuel with
  | zero => intro n h; omega
  | succ fuel ih =>
    intro n h
    unfold natDigitsAux
    split
    · next h10 =>
      show 10 * 0 + ((digitChar n).toNat - 48) = n
      rw [digitChar_toNat n h10]
      omega
    · next h10 =>
      have hlt : n / 10 < fuel := by
        have := Nat.div_lt_self (show 0 < n by omega) (show 1 < 10 by omega)
        omega
      rw [digitsVal_append_one, ih (n / 10) hlt,
        digitChar_toNat (n % 10) (Nat.mod_lt _ (by omega))]
      omega

theorem digitsVal_natDigits (n : Nat) : digitsVal (natDigits n) = n :=
  digitsVal_natDigitsAux (n + 1) n (Nat.lt_succ_self n)

theorem digitsVal_pad2 (n : Nat) : digitsVal (pad2 n) = n := by
  unfold pad2
  split
  · show List.foldl _ (10 * 0 + (('0').toNat - 48)) (natDigits n) = n
    have : 10 * 0 + (('0').toNat - 48) = 0 := by decide
    rw [this]
    exact digitsVal_natDigits n
  · exact digitsVal_natDigits n

theorem natDigitsAux_all_digits :
    ∀ (fuel n : Nat), ∀ c ∈ natDigitsAux fuel n, c.isDigit = true := by
  intro fuel
  induction fuel with
  | zero => intro n c hc; simp [natDigitsAux] at hc
  | succ fuel ih =>
    intro n c hc
    unfold natDigitsAux at hc
    split at hc
    · rw [List.mem_singleton] at hc
      rw [hc]
      exact digitChar_isDigit n
    · rcases List.mem_append.mp hc with hc | hc
      · exact ih (n / 10) c hc
      · rw [List.mem_singleton] at hc
        rw [hc]
        exact digitChar_isDigit _

theorem natDigits_all_digits (n : Nat) : ∀ c ∈ natDigits n, c.isDigit = true :=
  natDigitsAux_all_digits (n + 1) n

theorem pad2_all_digits (n : Nat) : ∀ c ∈ pad2 n, c.isDigit = true := by
  unfold pad2
  split
  · intro c hc
    rcases List.mem_cons.mp hc with hc | hc
    · rw [hc]; decide
    · exact natDigits_all_digits n c hc
  · exact natDigits_all_digits n

theorem takeWhile_append_stop {p : Char → Bool} :
    ∀ (l : List Char) (c : Char) (r : List Char),
      (∀ x ∈ l, p x = true) → p c = false →
      (l ++ c :: r).takeWhile p = l := by
  intro l
  induction l with
  | nil =>
    intro c r _ hc
    simp [List.takeWhile_cons, hc]
  | cons x xs ih =>
    intro c r hall hc
    have hx : p x = true := hall x (List.mem_cons_self x xs)
    simp only [List.cons_append, List.takeWhile_cons, hx, if_true]
    rw [ih c r (fun y hy => hall y (List.mem_cons_of_mem x hy)) hc]

theorem outName_digit_run (i : Nat) (b : List Char) :
    (outName i b).takeWhile Char.isDigit = pad2 i := by
  unfold outName
  exact takeWhile_append_stop (pad2 i) '_' (b ++ (".pdf").data)
    (pad2_all_digits i) (by decide)

theorem outName_inj (i j : Nat) (b1 b2 : List Char) (hij : i ≠ j) :
    outName i b1 ≠ outName j b2 := by
  intro heq
  have h1 := congrArg (List.takeWhile Char.isDigit) heq
  rw [outName_digit_run, outName_digit_run] at h1
  have h2 := congrArg digitsVal h1
  rw [digitsVal_pad2, digitsVal_pad2] at h2
  exact hij h2

/-! ### `safe_filename` lemmas -/

theorem subUnsafeAux_safe :
    ∀ (fl : Bool) (l : List Char), ∀ c ∈ subUnsafeAux fl l, isUnsafeChar c = false := by
  intro fl l
  induction l generalizing fl with
  | nil => intro c hc; simp [subUnsafeAux] at hc
  | cons x xs ih =>
    intro c hc
    unfold subUnsafeAux at hc
    by_cases hx : isUnsafeChar x
    · rw [if_pos hx] at hc
      by_cases hfl : fl
      · rw [if_pos hfl] at hc
        exact ih true c hc
      · rw [if_neg hfl] at hc
        rcases List.mem_cons.mp hc with hc | hc
        · rw [hc]; decide
        · exact ih true c hc
    · rw [if_neg hx] at hc
      rcases List.mem_cons.mp hc with hc | hc
      · rw [hc]; exact Bool.of_not_eq_true hx
      · exact ih false c hc

theorem mem_rstripL {c : Char} {l : List Char} (h : c ∈ rstripL l) : c ∈ l := by
  unfold rstripL at h
  rw [List.mem_reverse] at h
  exact List.mem_reverse.mp ((List.dropWhile_sublist _).subset h)

theorem mem_stripL {c : Char} {l : List Char} (h : c ∈ stripL l) : c ∈ l := by
  unfold stripL at h
  exact (List.dropWhile_sublist _).subset (mem_rstripL h)

theorem rstripL_length_le (l : List Char) : (rstripL l).length ≤ l.length := by
  unfold rstripL
  rw [List.length_reverse]
  calc (List.dropWhile isPySpace l.reverse).length
      ≤ l.reverse.length := (List.dropWhile_sublist _).length_le
    _ = l.length := List.length_reverse l

theorem dropWhile_append_last {p : Char → Bool} (c : Char) (hc : p c = false) :
    ∀ w : List Char, (w ++ [c]).dropWhile p = w.dropWhile p ++ [c] := by
  intro w
  induction w with
  | nil => simp [List.dropWhile_cons, hc]
  | cons a w ih =>
    by_cases ha : p a <;> simp [List.dropWhile_cons, ha, ih]

theorem rstripL_cons_false {c : Char} {l : List Char} (hc : isPySpace c = false) :
    rstripL (c :: l) = c :: rstripL l := by
  unfold rstripL
  rw [List.reverse_cons, dropWhile_append_last c hc, List.reverse_append]
  simp

theorem dropWhile_twice {p : Char → Bool} :
    ∀ l : List Char, (l.dropWhile p).dropWhile p = l.dropWhile p := by
  intro l
  induction l with
  | nil => rfl
  | cons a l ih =>
    by_cases ha : p a <;> simp [List.dropWhile_cons, ha, ih]

theorem rstripL_idem (l : List Char) : rstripL (rstripL l) = rstripL l := by
  unfold rstripL
  rw [List.reverse_reverse, dropWhile_twice]

theorem dropWhile_head_false {p : Char → Bool} :
    ∀ (l : List Char) {c : Char} {t : List Char}, l.dropWhile p = c :: t → p c = false := by
  intro l
  induction l with
  | nil => intro c t h; simp [List.dropWhile] at h
  | cons a l ih =>
    intro c t h
    rw [List.dropWhile_cons] at h
    by_cases ha : p a
    · rw [if_pos ha] at h
      exact ih h
    · rw [if_neg ha] at h
      cases h
      exact Bool.of_not_eq_true ha

theorem stripL_cases (l : List Char) :
    stripL l = [] ∨ ∃ c t, stripL l = c :: t ∧ isPySpace c = false := by
  unfold stripL
  cases h : l.dropWhile isPySpace with
  | nil => left; rfl
  | cons c t =>
    right
    have hc := dropWhile_head_false l h
    exact ⟨c, rstripL t, by rw [rstripL_cons_false hc], hc⟩

theorem stripL_rstripL (l : List Char) : rstripL (stripL l) = stripL l := by
  unfold stripL
  exact rstripL_idem _

theorem stripL_dropWhile (l : List Char) :
    (stripL l).dropWhile isPySpace = stripL l := by
  rcases stripL_cases l with h | ⟨c, t, h, hc⟩
  · rw [h]; rfl
  · rw [h, List.dropWhile_cons, if_neg (by simp [hc])]

theorem sfStripped_cases (n : List Char) :
    sfStripped n = [] ∨ ∃ c t, sfStripped n = c :: t ∧ isPySpace c = false :=
  stripL_cases _

theorem sfStripped_dropWhile (n : List Char) :
    (sfStripped n).dropWhile isPySpace = sfStripped n :=
  stripL_dropWhile _

theorem sfStripped_rstripL (n : List Char) :
    rstripL (sfStripped n) = sfStripped n :=
  stripL_rstripL _

theorem sfTrunc_dropWhile (n : List Char) :
    (sfTrunc n).dropWhile isPySpace = sfTrunc n := by
  unfold sfTrunc
  split
  · next h =>
    rcases sfStripped_cases n with h0 | ⟨c, t, h0, hc⟩
    · rw [h0] at h; simp at h
    · rw [h0, List.take_cons (by omega : (0 : Nat) < 80), rstripL_cons_false hc,
        List.dropWhile_cons, if_neg (by simp [hc])]
  · exact sfStripped_dropWhile n

theorem sfTrunc_rstripL (n : List Char) : rstripL (sfTrunc n) = sfTrunc n := by
  unfold sfTrunc
  split
  · exact rstripL_idem _
  · exact sfStripped_rstripL n

theorem sfTrunc_length (n : List Char) : (sfTrunc n).length ≤ 80 := by
  unfold sfTrunc
  split
  · calc (rstripL ((sfStripped n).take 80)).length
        ≤ ((sfStripped n).take 80).length := rstripL_length_le _
      _ ≤ 80 := by rw [List.length_take]; exact min_le_left _ _
  · next h => omega

theorem mem_sfTrunc {c : Char} {n : List Char} (h : c ∈ sfTrunc n) :
    c ∈ subUnsafeAux false n := by
  unfold sfTrunc at h
  split at h
  · exact mem_stripL ((List.take_sublist _ _).subset (mem_rstripL h))
  · exact mem_stripL h

/-! ### Substring lemmas for the error messages -/

theorem startsWithSeg_append_self : ∀ s r : List Char, startsWithSeg s (s ++ r) = true := by
  intro s r
  induction s with
  | nil => rfl
  | cons a as ih => simp [startsWithSeg, ih]

theorem containsSeg_of_starts {pat s : List Char} (h : startsWithSeg pat s = true) :
    containsSeg pat s = true := by
  cases s with
  | nil => exact h
  | cons c rest => simp [containsSeg, h]

theorem containsSeg_append_left (pre : List Char) {pat r : List Char}
    (h : containsSeg pat r = true) : containsSeg pat (pre ++ r) = true := by
  induction pre with
  | nil => exact h
  | cons a pre ih =>
    have hstep : containsSeg pat ((a :: pre) ++ r) =
        (startsWithSeg pat ((a :: pre) ++ r) || containsSeg pat (pre ++ r)) := rfl
    rw [hstep, ih, Bool.or_true]

theorem containsSeg_sandwich (pre s post : List Char) :
    containsSeg s (pre ++ (s ++ post)) = true :=
  containsSeg_append_left pre (containsSeg_of_starts (startsWithSeg_append_self s post))

/-! ### Worker branch analysis -/

theorem lookupFile_setFile (d : List (List Char × PdfBytes)) (n : List Char) (c : PdfBytes) :
    lookupFile (setFile d n c) n = some c := by
  simp [setFile, lookupFile]

theorem fsAfterRun_workDir (fs : FS) (beh : ConvBehavior)
    (eng wd pd stem nm : List Char) :
    (fsAfterRun fs beh eng wd pd stem nm).workDir = safeInNameOf stem nm :: fs.workDir := rfl

theorem fsAfterRun_pdfDir_some (fs : FS) (beh : ConvBehavior)
    (eng wd pd stem nm : List Char) {content : PdfBytes}
    (hp : beh.produced = some content) :
    (fsAfterRun fs beh eng wd pd stem nm).pdfDir =
      setFile fs.pdfDir (madeNameOf stem) content := by
  unfold fsAfterRun
  rw [hp]

theorem errPair_facts {k0 k : ErrKind} {msg0 msg : List Char} {fs0 fs' : FS}
    (h : ((Except.error (k0, msg0) : Except (ErrKind × List Char) (List Char)), fs0) =
      (Except.error (k, msg), fs')) : msg0 = msg ∧ k0 = k ∧ fs0 = fs' := by
  injection h with h1 h2
  injection h1 with h3
  exact ⟨congrArg Prod.snd h3, congrArg Prod.fst h3, h2⟩

theorem okPair_ne_err {v : List Char} {e : ErrKind × List Char} {fs0 fs' : FS}
    (h : ((Except.ok v : Except (ErrKind × List Char) (List Char)), fs0) =
      (Except.error e, fs')) : False := by
  injection h with h1 _
  exact Except.noConfusion h1

/-- Every error message raised by the worker on a non-timeout path with
the engine present names the source file. -/
theorem convert_some_err_msg (e wd pd : List Char) (beh : ConvBehavior)
    (nm stem fin : List Char) (fs : FS) (htf : beh.timedOut = false)
    (k : ErrKind) (msg : List Char) (fs' : FS)
    (h : convert_ppt_to_pdf (some e) wd pd beh nm stem fin fs = (Except.error (k, msg), fs')) :
    containsSeg nm msg = true := by
  unfold convert_ppt_to_pdf at h
  dsimp only at h
  rw [htf] at h
  simp only [Bool.false_eq_true, if_false] at h
  split at h
  · rw [← (errPair_facts h).1]
    unfold convFailedMsg
    simp only [List.append_assoc]
    exact containsSeg_sandwich _ _ _
  · split at h
    · rw [← (errPair_facts h).1]
      unfold missingMsg
      have := containsSeg_sandwich (("PDF 생성 실패(파일 없음): ").data) nm []
      simpa using this
    · split at h
      · rw [← (errPair_facts h).1]
        unfold corruptSizeMsg
        have := containsSeg_sandwich (("PDF가 0KB/비정상 크기(변환 실패): ").data) nm []
        simpa using this
      · split at h
        · rw [← (errPair_facts h).1]
          unfold corruptHdrMsg
          have := containsSeg_sandwich (("PDF 헤더 없음(손상/비PDF): ").data) nm []
          simpa using this
        · exact absurd h (fun hh => okPair_ne_err hh)

/-- On the success path the worker removes the temporary input copy
from the working directory before returning. -/
theorem convert_ok_cleanup (e wd pd : List Char) (beh : ConvBehavior)
    (nm stem fin : List Char) (fs : FS) (p : List Char) (fs' : FS)
    (h : convert_ppt_to_pdf (some e) wd pd beh nm stem fin fs = (Except.ok p, fs')) :
    safeInNameOf stem nm ∉ fs'.workDir := by
  unfold convert_ppt_to_pdf at h
  dsimp only at h
  split at h
  · exact absurd h.symm (fun hh => okPair_ne_err hh)
  · split at h
    · exact absurd h.symm (fun hh => okPair_ne_err hh)
    · split at h
      · exact absurd h.symm (fun hh => okPair_ne_err hh)
      · split at h
        · exact absurd h.symm (fun hh => okPair_ne_err hh)
        · split at h
          · exact absurd h.symm (fun hh => okPair_ne_err hh)
          · injection h with _ h2
            rw [← h2]
            intro hmem
            have := (List.mem_filter.mp hmem).2
            simp at this

/-- On every failure path after the copy (timeout, non-zero exit,
missing output, corrupt output — with the engine present those are the
only raise sites), the worker propagates its error while the temporary
input copy is still present in the working directory. -/
theorem convert_err_leak (e wd pd : List Char) (beh : ConvBehavior)
    (nm stem fin : List Char) (fs : FS) (k : ErrKind) (msg : List Char) (fs' : FS)
    (h : convert_ppt_to_pdf (some e) wd pd beh nm stem fin fs = (Except.error (k, msg), fs')) :
    safeInNameOf stem nm ∈ fs'.workDir := by
  unfold convert_ppt_to_pdf at h
  dsimp only at h
  split at h
  · rw [← (errPair_facts h).2.2, fsAfterRun_workDir]
    exact List.mem_cons_self _ _
  · split at h
    · rw [← (errPair_facts h).2.2, fsAfterRun_workDir]
      exact List.mem_cons_self _ _
    · split at h
      · rw [← (errPair_facts h).2.2, fsAfterRun_workDir]
        exact List.mem_cons_self _ _
      · split at h
        · rw [← (errPair_facts h).2.2, fsAfterRun_workDir]
          exact List.mem_cons_self _ _
        · split at h
          · rw [← (errPair_facts h).2.2, fsAfterRun_workDir]
            exact List.mem_cons_self _ _
          · exact absurd h (fun hh => okPair_ne_err hh)

/-- On a timeout the worker propagates an error while the temporary
input copy is still present in the working directory. -/
theorem convert_timeout_leak (e wd pd : List Char) (beh : ConvBehavior)
    (nm stem fin : List Char) (fs : FS) (htf : beh.timedOut = true) :
    safeInNameOf stem nm ∈
        (convert_ppt_to_pdf (some e) wd pd beh nm stem fin fs).2.workDir ∧
      isOkRes (convert_ppt_to_pdf (some e) wd pd beh nm stem fin fs).1 = false := by
  have hred : convert_ppt_to_pdf (some e) wd pd beh nm stem fin fs =
      (Except.error (ErrKind.timedOut, timeoutMsg (cmdOf e wd pd stem nm)),
        fsAfterRun fs beh e wd pd stem nm) := by
    unfold convert_ppt_to_pdf
    dsimp only
    rw [htf]
    simp
  rw [hred]
  exact ⟨List.mem_cons_self _ _, rfl⟩

/-- With exit status 0 and no timeout, the worker raises `CorruptOutput`
exactly when the produced file fails the size or signature check. -/
theorem convert_corrupt_iff (e wd pd : List Char) (beh : ConvBehavior)
    (nm stem fin : List Char) (fs : FS) (content : PdfBytes)
    (htf : beh.timedOut = false) (hrc : beh.returncode = 0)
    (hp : beh.produced = some content) :
    errKindOf (convert_ppt_to_pdf (some e) wd pd beh nm stem fin fs).1 =
        some ErrKind.corruptOutput ↔
      (content.size < 5000 ∨ content.head5 ≠ pdfMagic) := by
  unfold convert_ppt_to_pdf
  dsimp only
  rw [fsAfterRun_pdfDir_some fs beh e wd pd stem nm hp, lookupFile_setFile]
  by_cases h1 : content.size < 5000
  · simp [htf, hrc, h1, errKindOf]
  · by_cases h2 : content.head5 = pdfMagic
    · simp [htf, hrc, h1, h2, errKindOf]
    · simp [htf, hrc, h1, h2, errKindOf]

/-- A produced file failing the size or signature check is never
accepted, whatever the exit code or timeout behaviour. -/
theorem convert_corrupt_not_ok (engine : Option (List Char)) (wd pd : List Char)
    (beh : ConvBehavior) (nm stem fin : List Char) (fs : FS) (content : PdfBytes)
    (hp : beh.produced = some content)
    (hc : content.size < 5000 ∨ content.head5 ≠ pdfMagic) :
    isOkRes (convert_ppt_to_pdf engine wd pd beh nm stem fin fs).1 = false := by
  cases engine with
  | none => rfl
  | some e =>
    unfold convert_ppt_to_pdf
    dsimp only
    rw [fsAfterRun_pdfDir_some fs beh e wd pd stem nm hp, lookupFile_setFile]
    cases htf : beh.timedOut
    · by_cases hrc : beh.returncode = 0
      · rcases hc with h1 | h2
        · simp [htf, hrc, h1, isOkRes]
        · by_cases h1 : content.size < 5000
          · simp [htf, hrc, h1, isOkRes]
          · simp [htf, hrc, h1, h2, isOkRes]
      · simp [htf, hrc, isOkRes]
    · simp [htf, isOkRes]

/-! ### Batch loop lemmas -/

theorem runBatchGo_none_spec :
    ∀ (files : List FileSpec) (wd pd : List Char) (i sc : Nat)
      (errs : List (List Char)) (fs : FS),
      (runBatchGo none wd pd i files sc errs fs).successCount = sc ∧
      (runBatchGo none wd pd i files sc errs fs).errors.length = errs.length + files.length ∧
      (runBatchGo none wd pd i files sc errs fs).fs = fs := by
  intro files
  induction files with
  | nil =>
    intro wd pd i sc errs fs
    exact ⟨rfl, by simp [runBatchGo], rfl⟩
  | cons f rest ih =>
    intro wd pd i sc errs fs
    have hstep : runBatchGo none wd pd i (f :: rest) sc errs fs =
        runBatchGo none wd pd (i + 1) rest sc (errs ++ [engineMsg]) fs := rfl
    rw [hstep]
    have h := ih wd pd (i + 1) sc (errs ++ [engineMsg]) fs
    refine ⟨h.1, ?_, h.2.2⟩
    rw [h.2.1]
    simp
    omega

theorem runBatchGo_count :
    ∀ (files : List FileSpec) (engine : Option (List Char)) (wd pd : List Char)
      (i sc : Nat) (errs : List (List Char)) (fs : FS),
      (runBatchGo engine wd pd i files sc errs fs).successCount +
        (runBatchGo engine wd pd i files sc errs fs).errors.length =
      sc + errs.length + files.length := by
  intro files
  induction files with
  | nil =>
    intro engine wd pd i sc errs fs
    simp [runBatchGo]
  | cons f rest ih =>
    intro engine wd pd i sc errs fs
    simp only [runBatchGo]
    rcases hconv : convert_ppt_to_pdf engine wd pd f.beh f.name f.tmpStem
      (outName i (safe_filename (pyStem f.name))) fs with ⟨res, fs'⟩
    cases res with
    | ok v =>
      dsimp only
      have h := ih engine wd pd (i + 1) (sc + 1) errs fs'
      rw [List.length_cons]
      omega
    | error e =>
      dsimp only
      have h := ih engine wd pd (i + 1) sc (errs ++ [e.2]) fs'
      simp only [List.length_append, List.length_cons, List.length_nil] at h
      rw [List.length_cons]
      omega

/-! ### Concrete runs used by the claim theorems -/

def sofficePath : List Char := ("/usr/bin/soffice").data

def workDirPath : List Char := ("/tmp/run/work").data

def pdfDirPath : List Char := ("/tmp/run/pdfs").data

/-- One-file batch whose converter exits 0 but writes a 100-byte
non-PDF: the validation rejects it, yet the file stays in the output
directory. -/
def corruptRun : BatchOut :=
  runBatch (some sofficePath) workDirPath pdfDirPath
    [⟨("a.pptx").data, ("input_deadbeef").data, behSmall⟩]

/-- Two-file batch attempted with no converter installed. -/
def enginelessRun : BatchOut :=
  runBatch none workDirPath pdfDirPath
    [⟨("a.pptx").data, ("input_aa11").data, behValid⟩,
     ⟨("b.pptx").data, ("input_bb22").data, behValid⟩]

/-- Batch from the spec scenario: `CH01.pptx` converts, `CH02.pptx`
times out. -/
def timeoutRun : BatchOut :=
  runBatch (some sofficePath) workDirPath pdfDirPath
    [⟨("CH01.pptx").data, ("input_aa11").data, behValid⟩,
     ⟨("CH02.pptx").data, ("input_bb22").data, behHang⟩]

/-- A single worker call whose converter exits 1 leaving a corrupt
file. -/
def exitOneCall : Except (ErrKind × List Char) (List Char) × FS :=
  convert_ppt_to_pdf (some sofficePath) workDirPath pdfDirPath behExitOne
    (("deck.pptx").data) (("input_dd44").data) (("01_deck.pdf").data) emptyFS

/-- A single worker call that hits the 240 s timeout. -/
def hangCall : Except (ErrKind × List Char) (List Char) × FS :=
  convert_ppt_to_pdf (some sofficePath) workDirPath pdfDirPath behHang
    (("b.pptx").data) (("input_ff66").data) (("01_b.pdf").data) emptyFS

/-! ### Claim theorems -/

/-- C1: the claim states that the entry count of the packaged archive equals
the success count and that no Failure has an entry in the archive.  The
code violates it: evaluated on a batch whose only conversion fails the
size check, the run records zero successes but the leftover corrupt
`input_deadbeef.pdf` is swept into `PDFs.zip` by the `glob("*.pdf")`
packaging loop, so the archive has one entry for a recorded Failure. -/
theorem C1_corrupt_output_packaged :
    corruptRun.successCount = 0 ∧
    corruptRun.errors.length = 1 ∧
    zipEntries corruptRun.fs = [("input_deadbeef.pdf").data] ∧
    (zipEntries corruptRun.fs).length ≠ corruptRun.successCount := by
  decide

/-- C2 counterexample: with no engine found, the run does not abort
before any file is processed — it completes, records one caught
engine-unavailable failure per file (two here), and packages an empty
archive; no subprocess is spawned. -/
theorem C2_counterexample_no_abort :
    enginelessRun.errors ≠ [] ∧
    enginelessRun.errors.length = 2 ∧
    enginelessRun.successCount = 0 ∧
    enginelessRun.fs.spawned = [] := by
  decide

/-- C2 (amended): when the engine locator returns `NotFound`, no
subprocess is ever spawned and no conversion succeeds, but the batch
does not abort: every file is still iterated, each recording a caught
per-file engine-unavailable failure, and an empty package results. -/
theorem C2_amended_engineless_run :
    ∀ (wd pd : List Char) (files : List FileSpec),
      (runBatch none wd pd files).successCount = 0 ∧
      (runBatch none wd pd files).errors.length = files.length ∧
      (runBatch none wd pd files).fs.spawned = [] ∧
      zipEntries (runBatch none wd pd files).fs = [] := by
  intro wd pd files
  have h := runBatchGo_none_spec files wd pd 1 0 [] emptyFS
  refine ⟨h.1, by simpa using h.2.1, ?_, ?_⟩
  · rw [show (runBatch none wd pd files).fs = emptyFS from h.2.2]
    rfl
  · rw [show (runBatch none wd pd files).fs = emptyFS from h.2.2]
    rfl

/-- C3 counterexample: in the scenario given by the spec (`CH01.pptx` valid,
`CH02.pptx` times out) the batch does continue and tallies 1 success of
2, but the recorded timeout failure message — `str()` of the
`TimeoutExpired` exception — names the command line with the temporary
input name and does not include the source filename `CH02.pptx`. -/
theorem C3_counterexample_timeout_message :
    timeoutRun.successCount = 1 ∧
    timeoutRun.errors.length = 1 ∧
    (∀ m ∈ timeoutRun.errors, containsSeg (("CH02.pptx").data) m = false) ∧
    zipEntries timeoutRun.fs = [("01_CH01.pdf").data] := by
  decide

/-- C3 (amended): every worker failure is caught and recorded and the
loop always continues — successes plus recorded failures equal the
document count — and every non-timeout failure message raised with the
engine present names the source file; a timeout message (the raw
exception text) does not. -/
theorem C3_amended_failures_recorded :
    (∀ (e wd pd : List Char) (beh : ConvBehavior) (nm stem fin : List Char) (fs : FS),
      beh.timedOut = false →
      ∀ (k : ErrKind) (msg : List Char) (fs' : FS),
        convert_ppt_to_pdf (some e) wd pd beh nm stem fin fs = (Except.error (k, msg), fs') →
        containsSeg nm msg = true) ∧
    (∀ (engine : Option (List Char)) (wd pd : List Char) (files : List FileSpec),
      (runBatch engine wd pd files).successCount +
        (runBatch engine wd pd files).errors.length = files.length) := by
  constructor
  · exact convert_some_err_msg
  · intro engine wd pd files
    have h := runBatchGo_count files engine wd pd 1 0 [] emptyFS
    simpa using h

/-- Witness for C3 (amended): the non-zero-exit failure message for
`a.pptx` does contain the source filename. -/
theorem C3_amended_failures_recorded_witness :
    containsSeg (("a.pptx").data)
      (convFailedMsg (("a.pptx").data) (("boom").data) []) = true :=
  C3_amended_failures_recorded.1 sofficePath workDirPath pdfDirPath behExitOne
    (("a.pptx").data) (("input_cc33").data) (("01_a.pdf").data) emptyFS rfl
    ErrKind.convFailed _ _ rfl

/-- C4 counterexample: a corrupt produced file (100 bytes) under a
non-zero exit code is rejected as `ConversionFailed`, not
`CorruptOutput`, so the classification is not independent of the
exit code of the converter. -/
theorem C4_counterexample_exit_code :
    behExitOne.produced = some ⟨100, [0, 0, 0, 0, 0]⟩ ∧
    (100 : Nat) < 5000 ∧
    errKindOf exitOneCall.1 = some ErrKind.convFailed ∧
    errKindOf exitOneCall.1 ≠ some ErrKind.corruptOutput := by
  decide

/-- C4 (amended): when the converter exits 0 within the timeout and an
output file exists, the worker fails with `CorruptOutput` exactly when
the file is under 5000 bytes or its first five bytes differ from
`%PDF-`; and a produced file failing either check is never accepted,
whatever the exit code or timeout behaviour. -/
theorem C4_amended_corrupt_validation :
    (∀ (e wd pd : List Char) (beh : ConvBehavior) (nm stem fin : List Char)
      (fs : FS) (content : PdfBytes),
      beh.timedOut = false → beh.returncode = 0 → beh.produced = some content →
      (errKindOf (convert_ppt_to_pdf (some e) wd pd beh nm stem fin fs).1 =
          some ErrKind.corruptOutput ↔
        (content.size < 5000 ∨ content.head5 ≠ pdfMagic))) ∧
    (∀ (engine : Option (List Char)) (wd pd : List Char) (beh : ConvBehavior)
      (nm stem fin : List Char) (fs : FS) (content : PdfBytes),
      beh.produced = some content →
      (content.size < 5000 ∨ content.head5 ≠ pdfMagic) →
      isOkRes (convert_ppt_to_pdf engine wd pd beh nm stem fin fs).1 = false) :=
  ⟨convert_corrupt_iff, convert_corrupt_not_ok⟩

/-- Witness for C4 (amended): a 100-byte produced file with exit 0 is
classified `CorruptOutput` and not accepted. -/
theorem C4_amended_corrupt_validation_witness :
    errKindOf (convert_ppt_to_pdf (some sofficePath) workDirPath pdfDirPath behSmall
        (("x.pptx").data) (("input_ee55").data) (("01_x.pdf").data) emptyFS).1 =
      some ErrKind.corruptOutput ∧
    isOkRes (convert_ppt_to_pdf (some sofficePath) workDirPath pdfDirPath behSmall
        (("x.pptx").data) (("input_ee55").data) (("01_x.pdf").data) emptyFS).1 = false :=
  ⟨(C4_amended_corrupt_validation.1 sofficePath workDirPath pdfDirPath behSmall
      (("x.pptx").data) (("input_ee55").data) (("01_x.pdf").data) emptyFS
      ⟨100, [0, 0, 0, 0, 0]⟩ rfl rfl rfl).mpr (Or.inl (by decide)),
   C4_amended_corrupt_validation.2 (some sofficePath) workDirPath pdfDirPath behSmall
      (("x.pptx").data) (("input_ee55").data) (("01_x.pdf").data) emptyFS
      ⟨100, [0, 0, 0, 0, 0]⟩ rfl (Or.inl (by decide))⟩

/-- C5 counterexample: on the timeout path the worker propagates its
error while the temporary input copy `input_ff66.pptx` is still present
in the working directory — there is no cleanup on failure paths. -/
theorem C5_counterexample_temp_leak :
    isOkRes hangCall.1 = false ∧
    (("input_ff66.pptx").data) ∈ hangCall.2.workDir := by
  decide

/-- C5 (amended): the temporary input copy is removed before the worker
returns on the success path only; on every failure path — timeout,
non-zero exit, missing output, corrupt output — the worker propagates
its error with the copy still present in the working directory. -/
theorem C5_amended_cleanup_success_only :
    (∀ (e wd pd : List Char) (beh : ConvBehavior) (nm stem fin : List Char)
      (fs : FS) (p : List Char) (fs' : FS),
      convert_ppt_to_pdf (some e) wd pd beh nm stem fin fs = (Except.ok p, fs') →
      safeInNameOf stem nm ∉ fs'.workDir) ∧
    (∀ (e wd pd : List Char) (beh : ConvBehavior) (nm stem fin : List Char)
      (fs : FS) (k : ErrKind) (msg : List Char) (fs' : FS),
      convert_ppt_to_pdf (some e) wd pd beh nm stem fin fs = (Except.error (k, msg), fs') →
      safeInNameOf stem nm ∈ fs'.workDir) :=
  ⟨convert_ok_cleanup, convert_err_leak⟩

/-- Witness for C5 (amended): a successful conversion leaves no
temporary copy behind, while a non-zero-exit failure (a non-timeout
failure path) leaves its copy in the working directory. -/
theorem C5_amended_cleanup_success_only_witness :
    (safeInNameOf (("input_gg77").data) (("c.pptx").data) ∉
      (convert_ppt_to_pdf (some sofficePath) workDirPath pdfDirPath behValid
        (("c.pptx").data) (("input_gg77").data) (("01_c.pdf").data) emptyFS).2.workDir) ∧
    (safeInNameOf (("input_hh88").data) (("d.pptx").data) ∈
      (convert_ppt_to_pdf (some sofficePath) workDirPath pdfDirPath behExitOne
        (("d.pptx").data) (("input_hh88").data) (("01_d.pdf").data) emptyFS).2.workDir) :=
  ⟨C5_amended_cleanup_success_only.1 sofficePath workDirPath pdfDirPath behValid
      (("c.pptx").data) (("input_gg77").data) (("01_c.pdf").data) emptyFS
      (("01_c.pdf").data) _ rfl,
   C5_amended_cleanup_success_only.2 sofficePath workDirPath pdfDirPath behExitOne
      (("d.pptx").data) (("input_hh88").data) (("01_d.pdf").data) emptyFS
      ErrKind.convFailed _ _ rfl⟩

/-- C6: the three-tier key: chapter-pattern names get tier 0 with the
parsed digits (taking priority over the bare-digit rule, which also
matches `ch2`), a bare-digit name gets tier 1, a digitless name tier 2;
the example list of the spec sorts exactly as stated. -/
theorem C6_chapter_sort_order :
    chapter_key (("ch2.pptx").data) = (0, 2, ("ch2.pptx").data) ∧
    chapter_key (("CH01_intro.ppt").data) = (0, 1, ("CH01_intro.ppt").data) ∧
    chapter_key (("10_summary.pptx").data) = (1, 10, ("10_summary.pptx").data) ∧
    chapter_key (("notes.pptx").data) = (2, 9999, ("notes.pptx").data) ∧
    bareMatch (upperL (("ch2.pptx").data)) = some 2 ∧
    sortFiles [("ch2.pptx").data, ("CH01_intro.ppt").data,
        ("10_summary.pptx").data, ("notes.pptx").data] =
      [("CH01_intro.ppt").data, ("ch2.pptx").data,
        ("10_summary.pptx").data, ("notes.pptx").data] := by
  decide

/-- C7 counterexample: `B.pptx` and `a.pptx` fall in the same tier with
the same numeric value, and case-insensitively `a.pptx` sorts strictly
before `B.pptx`, yet the sort in the code emits `B.pptx` first — ties break
by code point (case-sensitively), not case-insensitively. -/
theorem C7_counterexample_case_sensitive :
    (chapter_key (("B.pptx").data)).1 = (chapter_key (("a.pptx").data)).1 ∧
    (chapter_key (("B.pptx").data)).2.1 = (chapter_key (("a.pptx").data)).2.1 ∧
    lexLe (lowerL (("a.pptx").data)) (lowerL (("B.pptx").data)) = true ∧
    lowerL (("a.pptx").data) ≠ lowerL (("B.pptx").data) ∧
    sortFiles [("B.pptx").data, ("a.pptx").data] ≠
      [("a.pptx").data, ("B.pptx").data] ∧
    sortFiles [("B.pptx").data, ("a.pptx").data] =
      [("B.pptx").data, ("a.pptx").data] := by
  decide

/-- C7 (amended): the ordering is total and deterministic — the sort is
a permutation of its input sorted by the key comparison — but ties
within a tier break by comparing the original filenames by code point
(case-sensitively), as the `B.pptx`/`a.pptx` pair shows. -/
theorem C7_amended_total_order :
    (∀ l : List (List Char), (sortFiles l).Perm l ∧ List.Sorted fileLe (sortFiles l)) ∧
    sortFiles [("B.pptx").data, ("a.pptx").data] =
      [("B.pptx").data, ("a.pptx").data] := by
  constructor
  · intro l
    exact ⟨List.perm_insertionSort fileLe l, List.sorted_insertionSort fileLe l⟩
  · decide

/-- C8: output filenames `{index:02d}_{base}.pdf` are pairwise distinct
for distinct positions whatever the (possibly equal) sanitized stems,
and positions 3 and 7 with stem `x` give `03_x.pdf` and `07_x.pdf`. -/
theorem C8_output_names_distinct :
    (∀ (i j : Nat) (b1 b2 : List Char), i ≠ j → outName i b1 ≠ outName j b2) ∧
    outName 3 (("x").data) = ("03_x.pdf").data ∧
    outName 7 (("x").data) = ("07_x.pdf").data := by
  refine ⟨outName_inj, by decide, by decide⟩

/-- Witness for C8: positions 3 and 7 with the same stem produce
distinct names. -/
theorem C8_output_names_distinct_witness :
    outName 3 (("x").data) ≠ outName 7 (("x").data) :=
  C8_output_names_distinct.1 3 7 (("x").data) (("x").data) (by decide)

/-- C9: for every input, `safe_filename` returns a non-empty name of at
most 80 characters containing none of the unsafe characters and carrying
no surrounding whitespace; when the processed name is empty the fixed
fallback `file` is substituted. -/
theorem C9_safe_filename_props (name : List Char) :
    safe_filename name ≠ [] ∧
    (safe_filename name).length ≤ 80 ∧
    (∀ c ∈ safe_filename name, isUnsafeChar c = false) ∧
    (safe_filename name).dropWhile isPySpace = safe_filename name ∧
    rstripL (safe_filename name) = safe_filename name ∧
    (sfTrunc name = [] → safe_filename name = ("file").data) := by
  unfold safe_filename
  split
  · exact ⟨by decide, by decide, by decide, by decide, by decide, fun _ => rfl⟩
  · next h =>
    have hne : sfTrunc name ≠ [] := fun hh => h (List.isEmpty_iff.mpr hh)
    exact ⟨hne, sfTrunc_length name,
      fun c hc => subUnsafeAux_safe false name c (mem_sfTrunc hc),
      sfTrunc_dropWhile name, sfTrunc_rstripL name,
      fun hh => absurd hh hne⟩

/-- Witness for C9: a whitespace-only stem collapses to the fallback
name. -/
theorem C9_safe_filename_props_witness :
    sfTrunc (("   ").data) = [] ∧ safe_filename (("   ").data) = ("file").data :=
  ⟨by decide, (C9_safe_filename_props (("   ").data)).2.2.2.2.2 (by decide)⟩

/-- C10: a regular file named exactly `.pptx` has an empty `pathlib`
suffix, so the classifier rejects it; any accepted name has a non-empty
stem before its accepted extension. -/
theorem C10_dotfile_rejected :
    eligible ((".pptx").data) = false ∧
    (∀ name : List Char, eligible name = true → pyStem name ≠ []) := by
  constructor
  · decide
  · intro name he
    have hsuf : pySuffix name ≠ [] := by
      intro h0
      unfold eligible at he
      rw [h0] at he
      exact absurd he (by decide)
    unfold pyStem
    unfold pySuffix at hsuf
    cases hdot : lastDotIdx name with
    | none =>
      rw [hdot] at hsuf
      exact absurd rfl hsuf
    | some i =>
      rw [hdot] at hsuf
      dsimp only at hsuf
      by_cases hc : 0 < i ∧ i < name.length - 1
      · dsimp only
        rw [if_pos hc]
        intro h0
        have hlen := congrArg List.length h0
        rw [List.length_take] at hlen
        have h1 : i ⊓ name.length = 0 := by simpa using hlen
        rcases Nat.min_eq_zero_iff.mp h1 with h2 | h2 <;> omega
      · rw [if_neg hc] at hsuf
        exact absurd rfl hsuf

/-- Witness for C10: an ordinary `a.pptx` is accepted and its stem is
non-empty. -/
theorem C10_dotfile_rejected_witness :
    eligible (("a.pptx").data) = true ∧ pyStem (("a.pptx").data) ≠ [] :=
  ⟨by decide, C10_dotfile_rejected.2 (("a.pptx").data) (by decide)⟩

end PptPdf
